import Mathlib

/-!
# as_root (rootHelper/rootHelper.c)

A shallow embedding of the setuid helper `as_root` and proofs about its
path validation, its dispatch and its file operations.

C strings are modelled by the list of their characters before the
terminating NUL; the operating system is modelled by an explicit world
(the files, the open streams, the two output streams and the log of calls
made) together with an environment that tells which file a path leads to and
decides the outcome of every call that can fail.
-/

namespace AsRoot

/-! ## C strings and the libc string functions the program calls -/

/-- The terminating character of a C string. -/
def NUL : Char := Char.ofNat 0

/-- A C string: its characters up to, and without, the terminator. -/
structure CString where
  chars : List Char
  nul_free : ∀ c ∈ chars, c ≠ NUL

instance : DecidableEq CString := fun a b =>
  decidable_of_iff (a.chars = b.chars)
    ⟨fun h => by cases a; cases b; cases h; rfl, fun h => by rw [h]⟩

/-- A string literal of the source as a C string: it ends at its first NUL. -/
def lit (s : String) : CString :=
  ⟨s.toList.takeWhile (fun c => decide (c ≠ NUL)),
   fun c hc => of_decide_eq_true
     (@List.mem_takeWhile_imp Char (fun c => decide (c ≠ NUL)) s.toList c hc)⟩

/-- The libc `strlen`. -/
def strlen (s : CString) : Nat := s.chars.length

/-- The loop of `strncmp` over the characters of both strings, the empty
list standing for the terminator: the difference of the first pair of
characters that differ among the first `n`, and 0 when there is none. Two
characters of the lists that are equal are not the terminator, so the loop
goes on after them. -/
def strncmp_chars : List Char → List Char → Nat → Int
  | _, _, 0 => 0
  | [], [], _ + 1 => 0
  | [], b :: _, _ + 1 => (NUL.toNat : Int) - b.toNat
  | a :: _, [], _ + 1 => (a.toNat : Int) - NUL.toNat
  | a :: s, b :: t, n + 1 =>
    if a ≠ b then (a.toNat : Int) - b.toNat else strncmp_chars s t n

/-- The libc `strncmp`. -/
def strncmp (s1 s2 : CString) (n : Nat) : Int := strncmp_chars s1.chars s2.chars n

/-- The loop of `strcmp`, the empty list standing for the terminator. -/
def strcmp_chars : List Char → List Char → Int
  | [], [] => 0
  | [], b :: _ => (NUL.toNat : Int) - b.toNat
  | a :: _, [] => (a.toNat : Int) - NUL.toNat
  | a :: s, b :: t => if a ≠ b then (a.toNat : Int) - b.toNat else strcmp_chars s t

/-- The libc `strcmp`. -/
def strcmp (s1 s2 : CString) : Int := strcmp_chars s1.chars s2.chars

/-- The libc `tolower` in the C locale, the one the program runs in (it never
calls `setlocale`): the 26 upper-case letters are mapped, nothing else. -/
def tolower (c : Char) : Char :=
  if 'A'.toNat ≤ c.toNat ∧ c.toNat ≤ 'Z'.toNat then Char.ofNat (c.toNat + 32) else c

/-- The loop of `strcasecmp`: `strcmp` on the lower-cased characters. -/
def strcasecmp_chars : List Char → List Char → Int
  | [], [] => 0
  | [], b :: _ => (NUL.toNat : Int) - (tolower b).toNat
  | a :: _, [] => ((tolower a).toNat : Int) - NUL.toNat
  | a :: s, b :: t =>
    if tolower a ≠ tolower b then ((tolower a).toNat : Int) - (tolower b).toNat
    else strcasecmp_chars s t

/-- The libc `strcasecmp`. -/
def strcasecmp (s1 s2 : CString) : Int := strcasecmp_chars s1.chars s2.chars

/-! ## Configuration: the constants of `common/paths.h` -/

/-- The three path prefixes that `rootHelper.c` takes from `common/paths.h`,
a header that is not part of the sources at hand: they are a parameter of
the embedding. -/
structure Paths where
  kCrashLogDirectoryForMobile : CString
  kCrashLogDirectoryForRoot : CString
  kTemporaryPath : CString

/-- The template of the temporary file of `read`. -/
def kTemporaryFilepath : CString := lit "/tmp/CrashReporter.temp.XXXXXX"

/-- The part of the template before its X characters. -/
def temp_stem : List Char := "/tmp/CrashReporter.temp.".toList

/-- Modelled from the spec: the value of `kTemporaryPath` is in the missing
header `common/paths.h`; the specification says that the temporary file of
`read` is made "under the temp prefix", that is, the prefix is an initial
part of the template before its X characters. -/
def temp_prefix_covers_template (cfg : Paths) : Prop :=
  cfg.kTemporaryPath.chars <+: temp_stem

instance (cfg : Paths) : Decidable (temp_prefix_covers_template cfg) := by
  unfold temp_prefix_covers_template; infer_instance

/-- The function `is_valid_filepath`; the C truth value is a `Bool`. -/
def is_valid_filepath (cfg : Paths) (filepath : CString) : Bool :=
  (strncmp filepath cfg.kCrashLogDirectoryForMobile
      (strlen cfg.kCrashLogDirectoryForMobile) == 0) ||
  (strncmp filepath cfg.kCrashLogDirectoryForRoot
      (strlen cfg.kCrashLogDirectoryForRoot) == 0) ||
  (strncmp filepath cfg.kTemporaryPath (strlen cfg.kTemporaryPath) == 0)

/-! ## The world the program runs in -/

/-- A file: its bytes and the attributes `chmod` and `lchown` change. -/
structure File where
  data : List Nat
  mode : Nat
  owner : Nat
  group : Nat
deriving DecidableEq

/-- The two modes in which the program opens a stream: "r" and "w". -/
inductive OpenMode where
  | r
  | w
deriving DecidableEq

/-- A call the program makes, with its arguments, as it is logged. -/
inductive Call where
  | setuid
  | is_valid_filepath (filepath : CString)
  | chmod (filepath : CString) (mode : Nat)
  | lchown (filepath : CString) (owner group : Nat)
  | fopen (filepath : CString) (mode : OpenMode)
  | fread (filepath : CString) (nitems : Nat)
  | fwrite (filepath : CString) (nitems written : Nat)
  | fclose (filepath : CString) (mode : OpenMode)
  | rename (old new : CString)
  | unlink (filepath : CString)
  | mktemp (template : CString)
deriving DecidableEq

/-- The calls that reach the filesystem: all of them but the change of
identity and the pure path check. -/
def Call.isFilesystemCall : Call → Bool
  | .setuid => false
  | .is_valid_filepath _ => false
  | _ => true

/-- The state of the world: the files, the streams the process has open,
what it has written to its two output streams, and the calls it has made so
far, oldest first. A file is kept under its canonical name, the name that
`Env.resolve` gives for every path that leads to it: two paths that lead to
one file, such as `/tmp/a` and `/tmp/./a` or a name and a link to it, are not
two entries. Removing or renaming a file removes or renames it for every
path that leads to it. -/
structure World where
  fs : CString → Option File
  handles : List (CString × OpenMode)
  stdout : List Char
  stderr : List Char
  calls : List Call

/-- The environment: the resolution of paths to files, the outcome of each
call that the program cannot determine, and the libc conversions of numeric
arguments. -/
structure Env where
  /-- the canonical name of the file a path leads to: two paths lead to the
  same file exactly when they have the same canonical name -/
  resolve : CString → CString
  /-- whether `setuid(geteuid())` returns 0 -/
  setuid_ok : Bool
  /-- the value of `errno` when a diagnostic is printed -/
  errno : Int
  /-- the value of `(mode_t) strtol(s, NULL, 8)` -/
  strtol8 : CString → Nat
  /-- the value of `atoi(s)` converted to `uid_t` or `gid_t` -/
  atoi : CString → Nat
  /-- whether `chmod` succeeds on an existing file -/
  chmod_ok : CString → Bool
  /-- whether `lchown` succeeds on an existing file -/
  lchown_ok : CString → Bool
  /-- whether `fopen` succeeds (for "r": on an existing file) -/
  fopen_ok : CString → OpenMode → Bool
  /-- how many of the `nitems` items `fwrite` writes at a file offset -/
  fwrite_count : Nat → Nat → Nat
  /-- whether `rename` succeeds on an existing source -/
  rename_ok : CString → CString → Bool
  /-- whether `unlink` succeeds on an existing file -/
  unlink_ok : CString → Bool
  /-- the characters `mktemp` picks for the X positions, none when it fails -/
  mktemp_pick : Option (Nat → Nat)
  /-- the attributes of a file that `fopen` creates -/
  new_mode : Nat
  new_owner : Nat
  new_group : Nat

def EXIT_SUCCESS : Int := 0

def EXIT_FAILURE : Int := 1

/-- Record a call in the log. -/
def World.log (w : World) (c : Call) : World := { w with calls := w.calls ++ [c] }

/-- Write text to standard error. -/
def World.eprint (w : World) (text : List Char) : World := { w with stderr := w.stderr ++ text }

/-- Write text to standard output. -/
def World.print (w : World) (text : List Char) : World := { w with stdout := w.stdout ++ text }

/-- Replace the files of the world. -/
def World.set_fs (w : World) (fs : CString → Option File) : World := { w with fs := fs }

/-- The files with the entry of one canonical name replaced. -/
def update (fs : CString → Option File) (p : CString) (f : Option File) : CString → Option File :=
  fun q => if q = p then f else fs q

/-- The bytes of the file of a canonical name, none when there is no file. -/
def file_data (fs : CString → Option File) (p : CString) : List Nat :=
  match fs p with
  | some f => f.data
  | none => []

/-- The bytes of a file after `bytes` are written at offset `pos`. -/
def pwrite (data : List Nat) (pos : Nat) (bytes : List Nat) : List Nat :=
  data.take pos ++ bytes ++ data.drop (pos + bytes.length)

/-- The files after `bytes` are written at offset `pos` of the file of the
canonical name `p`. -/
def write_at (fs : CString → Option File) (p : CString) (pos : Nat) (bytes : List Nat) :
    CString → Option File :=
  match fs p with
  | some f => update fs p (some { f with data := pwrite f.data pos bytes })
  | none => fs

/-- The call `setuid(geteuid())`: whether it returned 0. -/
def sys_setuid (env : Env) (w : World) : Bool × World :=
  (env.setuid_ok, w.log Call.setuid)

/-- The call `chmod(filepath, mode)`: whether it returned 0. The
permission bits of an existing file are replaced. -/
def sys_chmod (env : Env) (filepath : CString) (mode : Nat) (w : World) : Bool × World :=
  let w1 := w.log (Call.chmod filepath mode)
  match w.fs (env.resolve filepath) with
  | some f =>
    if env.chmod_ok filepath then
      (true, w1.set_fs (update w.fs (env.resolve filepath) (some { f with mode := mode % 4096 })))
    else (false, w1)
  | none => (false, w1)

/-- The call `lchown(filepath, owner, group)`: whether it returned 0. An id
of -1 (all ones in 32 bits) leaves that attribute as it is. -/
def sys_lchown (env : Env) (filepath : CString) (owner group : Nat) (w : World) : Bool × World :=
  let w1 := w.log (Call.lchown filepath owner group)
  match w.fs (env.resolve filepath) with
  | some f =>
    if env.lchown_ok filepath then
      (true, w1.set_fs (update w.fs (env.resolve filepath) (some { f with
          owner := if owner = 4294967295 then f.owner else owner,
          group := if group = 4294967295 then f.group else group })))
    else (false, w1)
  | none => (false, w1)

/-- The call `fopen(filepath, "r")` or `fopen(filepath, "w")`: whether the
stream returned is not NULL. Opening for reading needs the file the path
leads to to exist; opening for writing empties that file when it exists and
creates it when it is missing. -/
def sys_fopen (env : Env) (filepath : CString) (mode : OpenMode) (w : World) : Bool × World :=
  let w1 := w.log (Call.fopen filepath mode)
  if env.fopen_ok filepath mode then
    match mode, w.fs (env.resolve filepath) with
    | OpenMode.r, none => (false, w1)
    | OpenMode.r, some _ => (true, { w1 with handles := w.handles ++ [(filepath, mode)] })
    | OpenMode.w, some f =>
      (true, { w1 with fs := update w.fs (env.resolve filepath) (some { f with data := [] }),
                       handles := w.handles ++ [(filepath, mode)] })
    | OpenMode.w, none =>
      (true, { w1 with fs := update w.fs (env.resolve filepath)
                         (some ⟨[], env.new_mode, env.new_owner, env.new_group⟩),
                       handles := w.handles ++ [(filepath, mode)] })
  else (false, w1)

/-- The call `fclose(stream)` on a stream opened on `filepath`. -/
def sys_fclose (filepath : CString) (mode : OpenMode) (w : World) : World :=
  { w.log (Call.fclose filepath mode) with handles := w.handles.erase (filepath, mode) }

/-- The call `rename(old, new)`: whether it returned 0. -/
def sys_rename (env : Env) (old new : CString) (w : World) : Bool × World :=
  let w1 := w.log (Call.rename old new)
  match w.fs (env.resolve old) with
  | some f =>
    if env.rename_ok old new then
      (true, w1.set_fs (update (update w.fs (env.resolve old) none) (env.resolve new) (some f)))
    else (false, w1)
  | none => (false, w1)

/-- The call `unlink(filepath)`: whether it returned 0. -/
def sys_unlink (env : Env) (filepath : CString) (w : World) : Bool × World :=
  let w1 := w.log (Call.unlink filepath)
  match w.fs (env.resolve filepath) with
  | some _ =>
    if env.unlink_ok filepath then (true, w1.set_fs (update w.fs (env.resolve filepath) none))
    else (false, w1)
  | none => (false, w1)

/-- The characters `mktemp` draws the replacements of the X positions from. -/
def padchar : List Char :=
  "0123456789ABCDEFGHIJKLMNOPQRSTUVWXYZabcdefghijklmnopqrstuvwxyz".toList

/-- The number of X characters a template ends in. -/
def trailingX (cs : List Char) : Nat := (cs.reverse.takeWhile (fun c => c == 'X')).length

/-- The replacement of the `i`-th X position. -/
def padding (pick : Nat → Nat) (i : Nat) : Char :=
  if padchar.getD (pick i % 62) '0' = NUL then '0' else padchar.getD (pick i % 62) '0'

/-- The name `mktemp` makes of a template: the trailing X characters are
replaced, one by one, by characters drawn from `padchar`. -/
def mktemp_name (template : CString) (pick : Nat → Nat) : CString :=
  ⟨template.chars.take (template.chars.length - trailingX template.chars) ++
      (List.range (trailingX template.chars)).map (padding pick),
   by
    intro c hc
    rcases List.mem_append.1 hc with h | h
    · exact template.nul_free c (List.mem_of_mem_take h)
    · rcases List.mem_map.1 h with ⟨i, _, hi⟩
      rw [← hi]
      unfold padding
      split
      · decide
      · assumption⟩

/-- The call `mktemp(template)`: the name written over the template, none
when it returns NULL. The name it returns is one at which no file exists. -/
def sys_mktemp (env : Env) (template : CString) (w : World) : Option CString × World :=
  let w1 := w.log (Call.mktemp template)
  match env.mktemp_pick with
  | none => (none, w1)
  | some pick =>
    match w.fs (env.resolve (mktemp_name template pick)) with
    | none => (some (mktemp_name template pick), w1)
    | some _ => (none, w1)

/-! ## The program -/

/-- The text `print_usage` writes to standard error. -/
def usage (cfg : Paths) : List Char :=
  ("Usage: as_root chmod <filepath> <mode>\n" ++
   "       as_root chown <filepath> <owner> <group>\n" ++
   "       as_root copy <from_filepath> <to_filepath>\n" ++
   "       as_root delete <filepath>\n" ++
   "       as_root move <from_filepath> <to_filepath>\n" ++
   "       as_root read <filepath>\n" ++
   "\n" ++
   "       Note that only filepaths with the following prefixes are permitted:\n" ++
   "       * \"").toList ++ cfg.kCrashLogDirectoryForMobile.chars ++ "\"\n       * \"".toList ++
   cfg.kCrashLogDirectoryForRoot.chars ++ "\"\n       * \"".toList ++
   cfg.kTemporaryPath.chars ++ "\"\n".toList

/-- The function `print_usage`. -/
def print_usage (cfg : Paths) (w : World) : World := w.eprint (usage cfg)

/-- A diagnostic that ends in the value of `errno`. -/
def with_errno (env : Env) (text : String) : List Char :=
  text.toList ++ ", errno = ".toList ++ (toString env.errno).toList ++ ".\n".toList

/-- The call `fread(buffer, sizeof(char), sizeof(buffer), stream)` on a
stream at offset `pos` of the file at `filepath`: the bytes delivered, which
are the next `BUFSIZ` bytes of the file as it is at that moment, fewer at its
end and none after it. Reading an open file is taken to succeed. -/
def sys_fread (env : Env) (BUFSIZ : Nat) (filepath : CString) (pos : Nat) (w : World) :
    List Nat × World :=
  (((file_data w.fs (env.resolve filepath)).drop pos).take BUFSIZ,
   w.log (Call.fread filepath
     (((file_data w.fs (env.resolve filepath)).drop pos).take BUFSIZ).length))

/-- The call `fwrite(buffer, sizeof(char), nitems, stream)` on a stream at
offset `pos` of the file at `filepath`: the number of items written, at most
`nitems`; those items are in the file afterwards. -/
def sys_fwrite (env : Env) (filepath : CString) (pos : Nat) (buffer : List Nat) (w : World) :
    Nat × World :=
  (min buffer.length (env.fwrite_count pos buffer.length),
   (w.set_fs (write_at w.fs (env.resolve filepath) pos
        (buffer.take (min buffer.length (env.fwrite_count pos buffer.length))))).log
     (Call.fwrite filepath buffer.length (min buffer.length (env.fwrite_count pos buffer.length))))

/-- The loop of `copy`, from the offset `pos` both streams are at: each
chunk read from the source is written at the same offset of the destination,
and a short write ends the loop by `goto exit_copy`. The result tells
whether the loop ran to the end of the source. -/
def copy_loop (env : Env) (BUFSIZ : Nat) (from_filepath to_filepath : CString)
    (pos : Nat) (w : World) : Bool × World :=
  let rd := sys_fread env BUFSIZ from_filepath pos w
  if rd.1.length > 0 then
    let wr := sys_fwrite env to_filepath pos rd.1 rd.2
    if wr.1 ≠ rd.1.length then
      (false, wr.2.eprint (with_errno env "ERROR: Failure while copying file"))
    else copy_loop env BUFSIZ from_filepath to_filepath (pos + rd.1.length) wr.2
  else (true, rd.2)
termination_by (file_data w.fs (env.resolve from_filepath)).length - pos
decreasing_by
  rename_i hpos hfull
  have hw : wr.1 = rd.1.length := not_not.1 hfull
  have hn : pos + rd.1.length ≤ (file_data w.fs (env.resolve from_filepath)).length := by
    have h1 : rd.1.length ≤ (file_data w.fs (env.resolve from_filepath)).length - pos := by
      simp only [rd, sys_fread, List.length_take, List.length_drop]; omega
    omega
  have key : (file_data wr.2.fs (env.resolve from_filepath)).length =
      (file_data w.fs (env.resolve from_filepath)).length := by
    have hfs : wr.2.fs = write_at w.fs (env.resolve to_filepath) pos rd.1 := by
      have h3 : rd.1.take wr.1 = rd.1 := by rw [hw, List.take_length]
      show write_at w.fs (env.resolve to_filepath) pos (rd.1.take wr.1) = _
      rw [h3]
    rw [hfs]
    unfold write_at
    cases hto : w.fs (env.resolve to_filepath) with
    | none => rfl
    | some f =>
      by_cases hq : env.resolve from_filepath = env.resolve to_filepath
      · rw [hq] at hn ⊢
        simp only [file_data, hto, update, if_true, pwrite, List.length_append,
          List.length_take, List.length_drop] at hn ⊢
        omega
      · simp [file_data, update, hq]
  show (file_data wr.2.fs (env.resolve from_filepath)).length - (pos + rd.1.length)
      < (file_data w.fs (env.resolve from_filepath)).length - pos
  rw [key]
  omega

/-- The function `copy`. A short write leaves through `exit_copy`, past
both `fclose` calls. -/
def copy (env : Env) (BUFSIZ : Nat) (from_filepath to_filepath : CString) (w : World) :
    Int × World :=
  match sys_fopen env from_filepath OpenMode.r w with
  | (true, w1) =>
    match sys_fopen env to_filepath OpenMode.w w1 with
    | (true, w2) =>
      match copy_loop env BUFSIZ from_filepath to_filepath 0 w2 with
      | (true, w3) =>
        (EXIT_SUCCESS, sys_fclose from_filepath OpenMode.r (sys_fclose to_filepath OpenMode.w w3))
      | (false, w3) => (EXIT_FAILURE, w3)
    | (false, w2) =>
      (EXIT_FAILURE, sys_fclose from_filepath OpenMode.r
        (w2.eprint (with_errno env "ERROR: Unable to open destination filepath for writing")))
  | (false, w1) =>
    (EXIT_FAILURE, w1.eprint (with_errno env "ERROR: Unable to open source filepath for reading"))

/-- A call of `is_valid_filepath`, logged. -/
def validate (cfg : Paths) (filepath : CString) (w : World) : Bool × World :=
  (is_valid_filepath cfg filepath, w.log (Call.is_valid_filepath filepath))

/-- The check `!is_valid_filepath(from) || !is_valid_filepath(to)` of copy
and move: the second path is checked only when the first one is valid. -/
def either_invalid (cfg : Paths) (from_filepath to_filepath : CString) (w : World) :
    Bool × World :=
  match validate cfg from_filepath w with
  | (false, w1) => (true, w1)
  | (true, w1) =>
    match validate cfg to_filepath w1 with
    | (v, w2) => (!v, w2)

/-- The argument `argv[i]`; the program reads it only for `i < argc`. -/
def arg (argv : List CString) (i : Nat) : CString := argv.getD i (lit "")

/-- The function `main`: `argv` is the whole argument vector, `argv[0]`
included, and `argc` its length. The result is the exit status and the
world the process leaves. -/
def main (cfg : Paths) (env : Env) (BUFSIZ : Nat) (argv : List CString) (w : World) :
    Int × World :=
  match sys_setuid env w with
  | (false, w0) =>
    (EXIT_FAILURE, w0.eprint (with_errno env "ERROR: Unable to assume root powers"))
  | (true, w0) =>
    if argv.length = 4 ∧ strcasecmp (arg argv 1) (lit "chmod") = 0 then
      match sys_chmod env (arg argv 2) (env.strtol8 (arg argv 3)) w0 with
      | (false, w1) =>
        (EXIT_FAILURE, w1.eprint ("WARNING: Failed to change mode of file: ".toList ++
          (arg argv 2).chars ++ with_errno env ""))
      | (true, w1) => (EXIT_SUCCESS, w1)
    else if argv.length = 5 ∧ strcasecmp (arg argv 1) (lit "chown") = 0 then
      match sys_lchown env (arg argv 2) (env.atoi (arg argv 3)) (env.atoi (arg argv 4)) w0 with
      | (false, w1) =>
        (EXIT_FAILURE, w1.eprint ("WARNING: Failed to change ownership of file: ".toList ++
          (arg argv 2).chars ++ with_errno env ""))
      | (true, w1) => (EXIT_SUCCESS, w1)
    else if argv.length = 4 ∧ strcasecmp (arg argv 1) (lit "copy") = 0 then
      match either_invalid cfg (arg argv 2) (arg argv 3) w0 with
      | (true, w1) =>
        (EXIT_FAILURE,
          w1.eprint "ERROR: At least one of the specified filepaths is not allowed.\n".toList)
      | (false, w1) =>
        match copy env BUFSIZ (arg argv 2) (arg argv 3) w1 with
        | (rc, w2) => if rc ≠ 0 then (EXIT_FAILURE, w2) else (EXIT_SUCCESS, w2)
    else if argv.length = 4 ∧ strcasecmp (arg argv 1) (lit "move") = 0 then
      match either_invalid cfg (arg argv 2) (arg argv 3) w0 with
      | (true, w1) =>
        (EXIT_FAILURE,
          w1.eprint "ERROR: At least one of the specified filepaths is not allowed.\n".toList)
      | (false, w1) =>
        if strcmp (arg argv 2) (arg argv 3) ≠ 0 then
          match sys_rename env (arg argv 2) (arg argv 3) w1 with
          | (false, w2) =>
            (EXIT_FAILURE, w2.eprint (with_errno env "ERROR: Failed to rename file"))
          | (true, w2) => (EXIT_SUCCESS, w2)
        else (EXIT_SUCCESS, w1)
    else if argv.length = 3 ∧ strcasecmp (arg argv 1) (lit "delete") = 0 then
      match validate cfg (arg argv 2) w0 with
      | (false, w1) =>
        (EXIT_FAILURE, w1.eprint "ERROR: Specified filepath is not allowed.\n".toList)
      | (true, w1) =>
        match sys_unlink env (arg argv 2) w1 with
        | (false, w2) =>
          (EXIT_FAILURE, w2.eprint (with_errno env "ERROR: Failed to delete file"))
        | (true, w2) => (EXIT_SUCCESS, w2)
    else if argv.length = 3 ∧ strcasecmp (arg argv 1) (lit "read") = 0 then
      match validate cfg (arg argv 2) w0 with
      | (false, w1) =>
        (EXIT_FAILURE, w1.eprint "ERROR: Specified filepath is not allowed.\n".toList)
      | (true, w1) =>
        match sys_mktemp env kTemporaryFilepath w1 with
        | (none, w2) =>
          (EXIT_FAILURE, w2.eprint "ERROR: Unable to create temporary filepath.\n".toList)
        | (some temp_filepath, w2) =>
          match copy env BUFSIZ (arg argv 2) temp_filepath w2 with
          | (rc, w3) =>
            if rc ≠ 0 then (EXIT_FAILURE, w3)
            else (EXIT_SUCCESS, w3.print (temp_filepath.chars ++ [Char.ofNat 10]))
    else (EXIT_SUCCESS, print_usage cfg w0)

/-! ## The command table of the specification -/

/-- Two strings that differ at most in the case of their letters. -/
def same_ignoring_case (a b : CString) : Prop := a.chars.map tolower = b.chars.map tolower

instance (a b : CString) : Decidable (same_ignoring_case a b) := by
  unfold same_ignoring_case; infer_instance

/-- The six command forms of the specification: the operation name and the
argument count, `argv[0]` counted. -/
def commands : List (String × Nat) :=
  [("chmod", 4), ("chown", 5), ("copy", 4), ("move", 4), ("delete", 3), ("read", 3)]

/-- An argument vector that matches a row of the command table. -/
def matches_command (argv : List CString) : Prop :=
  ∃ row ∈ commands, argv.length = row.2 ∧ same_ignoring_case (arg argv 1) (lit row.1)

instance (argv : List CString) : Decidable (matches_command argv) := by
  unfold matches_command; infer_instance

/-! ## Sample inputs -/

/-- A configuration with the directories the usage text is about. -/
def sample_paths : Paths :=
  ⟨lit "/var/mobile/Library/Logs/CrashReporter", lit "/Library/Logs/CrashReporter", lit "/tmp"⟩

/-- An environment in which every path is the canonical name of its file,
every call succeeds and every write is full. -/
def env_ok : Env :=
  ⟨fun p => p, true, 0, fun _ => 420, fun _ => 501, fun _ => true, fun _ => true, fun _ _ => true,
   fun _ n => n, fun _ _ => true, fun _ => true, some (fun i => i + 10), 420, 0, 0⟩

/-- An environment in which the process cannot become root. -/
def env_no_root : Env :=
  ⟨fun p => p, false, 1, fun _ => 420, fun _ => 501, fun _ => true, fun _ => true, fun _ _ => true,
   fun _ n => n, fun _ _ => true, fun _ => true, some (fun i => i + 10), 420, 0, 0⟩

/-- An environment in which `fwrite` writes one item at most. -/
def env_short_write : Env :=
  ⟨fun p => p, true, 28, fun _ => 420, fun _ => 501, fun _ => true, fun _ => true, fun _ _ => true,
   fun _ _ => 1, fun _ _ => true, fun _ => true, some (fun i => i + 10), 420, 0, 0⟩

/-- An environment like `env_ok` in which `/tmp/./a` leads to the file
`/tmp/a`. -/
def env_dot : Env :=
  ⟨fun p => if p = lit "/tmp/./a" then lit "/tmp/a" else p, true, 0, fun _ => 420, fun _ => 501,
   fun _ => true, fun _ => true, fun _ _ => true, fun _ n => n, fun _ _ => true, fun _ => true,
   some (fun i => i + 10), 420, 0, 0⟩

/-- A filesystem with one file outside the allowed directories and one inside. -/
def sample_fs : CString → Option File := fun p =>
  if p = lit "/etc/passwd" then some ⟨[114, 111, 111, 116], 384, 0, 0⟩
  else if p = lit "/tmp/a" then some ⟨[1, 2, 3, 4, 5], 384, 501, 501⟩
  else none

/-- A world with the sample files, nothing open and nothing written yet. -/
def sample_world : World := ⟨sample_fs, [], [], [], []⟩

/-! ## Facts about the string functions -/

theorem toNat_sub_ne_zero {a b : Char} (h : a ≠ b) : (a.toNat : Int) - b.toNat ≠ 0 := by
  intro h0
  apply h
  have h1 : a.toNat = b.toNat := by omega
  rw [← Char.ofNat_toNat a, ← Char.ofNat_toNat b, h1]

theorem NUL_toNat : NUL.toNat = 0 := by decide

theorem toNat_ne_zero {a : Char} (h : a ≠ NUL) : a.toNat ≠ 0 := by
  intro h0
  apply h
  rw [← Char.ofNat_toNat a, h0]
  rfl

/-- Comparing with a NUL-free string over that string's length is a prefix test. -/
theorem strncmp_chars_eq_zero_iff (t : List Char) (ht : ∀ c ∈ t, c ≠ NUL) :
    ∀ s : List Char, strncmp_chars s t t.length = 0 ↔ t <+: s := by
  induction t with
  | nil => intro s; simp [strncmp_chars]
  | cons b t ih =>
    intro s
    have hb : b ≠ NUL := ht b (List.mem_cons_self _ _)
    have ht2 : ∀ c ∈ t, c ≠ NUL := fun c hc => ht c (List.mem_cons_of_mem _ hc)
    cases s with
    | nil =>
      simp only [List.length_cons, strncmp_chars, NUL_toNat]
      have := toNat_ne_zero hb
      constructor
      · intro h; omega
      · intro h; simp at h
    | cons a s =>
      simp only [List.length_cons, strncmp_chars]
      by_cases hab : a = b
      · subst hab
        simp [ih ht2 s, List.prefix_cons_inj]
      · have h1 := toNat_sub_ne_zero hab
        simp only [ne_eq, hab, not_false_eq_true, if_true]
        constructor
        · intro h; exact absurd h h1
        · intro h
          rw [List.cons_prefix_cons] at h
          exact absurd h.1.symm hab

theorem strncmp_eq_zero_iff (s t : CString) :
    strncmp s t (strlen t) = 0 ↔ t.chars <+: s.chars :=
  strncmp_chars_eq_zero_iff t.chars t.nul_free s.chars

theorem is_valid_filepath_iff (cfg : Paths) (p : CString) :
    is_valid_filepath cfg p = true ↔
      (cfg.kCrashLogDirectoryForMobile.chars <+: p.chars ∨
       cfg.kCrashLogDirectoryForRoot.chars <+: p.chars ∨
       cfg.kTemporaryPath.chars <+: p.chars) := by
  simp [is_valid_filepath, strncmp_eq_zero_iff, or_assoc]

theorem tolower_ne_NUL {c : Char} (h : c ≠ NUL) : tolower c ≠ NUL := by
  unfold tolower
  split
  · rename_i hr
    obtain ⟨n, hn⟩ : ∃ n, c.toNat = n := ⟨_, rfl⟩
    rw [hn] at hr ⊢
    have h1 : 65 ≤ n := hr.1
    have h2 : n ≤ 90 := hr.2
    interval_cases n <;> decide
  · exact h

/-- Comparing NUL-free strings without regard to case gives 0 exactly when
their lower-cased characters agree. -/
theorem strcasecmp_chars_eq_zero_iff :
    ∀ s t : List Char, (∀ c ∈ s, c ≠ NUL) → (∀ c ∈ t, c ≠ NUL) →
      (strcasecmp_chars s t = 0 ↔ s.map tolower = t.map tolower)
  | [], [], _, _ => by simp [strcasecmp_chars]
  | [], b :: t, _, ht => by
    have h1 := toNat_ne_zero (tolower_ne_NUL (ht b (List.mem_cons_self _ _)))
    simp only [strcasecmp_chars, NUL_toNat, List.map_nil, List.map_cons]
    constructor
    · intro h; omega
    · intro h; simp at h
  | a :: s, [], hs, _ => by
    have h1 := toNat_ne_zero (tolower_ne_NUL (hs a (List.mem_cons_self _ _)))
    simp only [strcasecmp_chars, NUL_toNat, List.map_nil, List.map_cons]
    constructor
    · intro h; omega
    · intro h; simp at h
  | a :: s, b :: t, hs, ht => by
    have ih := strcasecmp_chars_eq_zero_iff s t
      (fun c hc => hs c (List.mem_cons_of_mem _ hc)) (fun c hc => ht c (List.mem_cons_of_mem _ hc))
    simp only [strcasecmp_chars, List.map_cons, List.cons.injEq]
    by_cases hab : tolower a = tolower b
    · simp [hab, ih]
    · have h1 := toNat_sub_ne_zero hab
      simp [hab, h1]

theorem strcasecmp_eq_zero_iff (a b : CString) :
    strcasecmp a b = 0 ↔ same_ignoring_case a b :=
  strcasecmp_chars_eq_zero_iff a.chars b.chars a.nul_free b.nul_free

theorem strcmp_chars_self : ∀ s : List Char, strcmp_chars s s = 0
  | [] => rfl
  | a :: s => by simp [strcmp_chars, strcmp_chars_self s]

theorem strcmp_self (a : CString) : strcmp a a = 0 := strcmp_chars_self a.chars

/-- A name that matches one command does not match another. -/
theorem strcasecmp_other {op : CString} {a b : String}
    (h : same_ignoring_case op (lit a)) (hab : ¬ same_ignoring_case (lit a) (lit b)) :
    strcasecmp op (lit b) ≠ 0 := by
  rw [Ne, strcasecmp_eq_zero_iff]
  intro h2
  apply hab
  unfold same_ignoring_case at *
  rw [← h, h2]

/-! ## The copy primitive -/

theorem copy_loop_end (env : Env) (BUFSIZ : Nat) (from_filepath to_filepath : CString)
    (pos : Nat) (w : World) (h : ¬ (sys_fread env BUFSIZ from_filepath pos w).1.length > 0) :
    copy_loop env BUFSIZ from_filepath to_filepath pos w =
      (true, (sys_fread env BUFSIZ from_filepath pos w).2) := by
  rw [copy_loop, if_neg h]

theorem copy_loop_short (env : Env) (BUFSIZ : Nat) (from_filepath to_filepath : CString)
    (pos : Nat) (w : World) (h : (sys_fread env BUFSIZ from_filepath pos w).1.length > 0)
    (hs : (sys_fwrite env to_filepath pos (sys_fread env BUFSIZ from_filepath pos w).1
      (sys_fread env BUFSIZ from_filepath pos w).2).1 ≠
        (sys_fread env BUFSIZ from_filepath pos w).1.length) :
    copy_loop env BUFSIZ from_filepath to_filepath pos w =
      (false, (sys_fwrite env to_filepath pos (sys_fread env BUFSIZ from_filepath pos w).1
        (sys_fread env BUFSIZ from_filepath pos w).2).2.eprint
          (with_errno env "ERROR: Failure while copying file")) := by
  rw [copy_loop, if_pos h]
  exact if_pos hs

theorem copy_loop_next (env : Env) (BUFSIZ : Nat) (from_filepath to_filepath : CString)
    (pos : Nat) (w : World) (h : (sys_fread env BUFSIZ from_filepath pos w).1.length > 0)
    (hs : ¬ (sys_fwrite env to_filepath pos (sys_fread env BUFSIZ from_filepath pos w).1
      (sys_fread env BUFSIZ from_filepath pos w).2).1 ≠
        (sys_fread env BUFSIZ from_filepath pos w).1.length) :
    copy_loop env BUFSIZ from_filepath to_filepath pos w =
      copy_loop env BUFSIZ from_filepath to_filepath
        (pos + (sys_fread env BUFSIZ from_filepath pos w).1.length)
        (sys_fwrite env to_filepath pos (sys_fread env BUFSIZ from_filepath pos w).1
          (sys_fread env BUFSIZ from_filepath pos w).2).2 := by
  rw [copy_loop, if_pos h]
  exact if_neg hs

theorem write_at_other (fs : CString → Option File) (p q : CString) (pos : Nat)
    (bytes : List Nat) (h : q ≠ p) : write_at fs p pos bytes q = fs q := by
  unfold write_at
  cases fs p with
  | none => rfl
  | some f => simp [update, h]

theorem write_at_same (fs : CString → Option File) (p : CString) (pos : Nat)
    (bytes : List Nat) (f : File) (h : fs p = some f) :
    write_at fs p pos bytes p = some { f with data := pwrite f.data pos bytes } := by
  unfold write_at
  rw [h]
  simp [update]

/-- The loop writes nothing to standard output, opens and closes nothing,
and changes no file but the destination. -/
theorem copy_loop_frame (env : Env) (BUFSIZ : Nat) (from_filepath to_filepath : CString)
    (pos : Nat) (w : World) :
    (copy_loop env BUFSIZ from_filepath to_filepath pos w).2.stdout = w.stdout ∧
    (copy_loop env BUFSIZ from_filepath to_filepath pos w).2.handles = w.handles ∧
    ∀ q, q ≠ env.resolve to_filepath →
      (copy_loop env BUFSIZ from_filepath to_filepath pos w).2.fs q = w.fs q := by
  induction pos, w using copy_loop.induct env BUFSIZ from_filepath to_filepath with
  | case1 pos w rd hpos wr hshort =>
    rw [copy_loop_short env BUFSIZ from_filepath to_filepath pos w hpos hshort]
    refine ⟨rfl, rfl, fun q hq => ?_⟩
    exact write_at_other _ _ _ _ _ hq
  | case2 pos w rd hpos wr hfull ih =>
    rw [copy_loop_next env BUFSIZ from_filepath to_filepath pos w hpos hfull]
    refine ⟨ih.1, ih.2.1, fun q hq => ?_⟩
    rw [ih.2.2 q hq]
    exact write_at_other _ _ _ _ _ hq
  | case3 pos w rd hpos =>
    rw [copy_loop_end env BUFSIZ from_filepath to_filepath pos w hpos]
    exact ⟨rfl, rfl, fun _ _ => rfl⟩

theorem take_length_take (l : List Nat) (n : Nat) : l.take (l.take n).length = l.take n := by
  rw [List.length_take]
  rcases Nat.le_total n l.length with h | h
  · rw [Nat.min_eq_left h]
  · rw [Nat.min_eq_right h, List.take_length, List.take_of_length_le h]

/-- Writing the next chunk of `data` after its first `pos` bytes gives its
first `pos + n` bytes. -/
theorem pwrite_next_chunk (data : List Nat) (pos n : Nat) :
    pwrite (data.take pos) pos ((data.drop pos).take n) =
      data.take (pos + ((data.drop pos).take n).length) := by
  unfold pwrite
  rw [List.take_take, Nat.min_self, List.take_add, take_length_take]
  have h : List.drop (pos + ((data.drop pos).take n).length) (data.take pos) = [] := by
    apply List.drop_of_length_le
    rw [List.length_take]
    omega
  rw [h, List.append_nil]

/-- The loop between paths that lead to two different files, entered when the destination holds
the first `pos` bytes of the source: if it runs to the end the destination
holds all bytes of the source, and it does run to the end when every write
is full. -/
theorem copy_loop_copies (env : Env) (BUFSIZ : Nat) (from_filepath to_filepath : CString)
    (hne : env.resolve from_filepath ≠ env.resolve to_filepath) (hB : 0 < BUFSIZ) (f : File)
    (pos : Nat) (w : World) :
    w.fs (env.resolve from_filepath) = some f →
    (∃ g, w.fs (env.resolve to_filepath) = some g ∧ g.data = f.data.take pos) →
    ((copy_loop env BUFSIZ from_filepath to_filepath pos w).1 = true →
      ∃ g, (copy_loop env BUFSIZ from_filepath to_filepath pos w).2.fs
          (env.resolve to_filepath) = some g ∧ g.data = f.data) ∧
    ((∀ p n, n ≤ env.fwrite_count p n) →
      (copy_loop env BUFSIZ from_filepath to_filepath pos w).1 = true) := by
  induction pos, w using copy_loop.induct env BUFSIZ from_filepath to_filepath with
  | case1 pos w rd hpos wr hshort =>
    intro _ _
    rw [copy_loop_short env BUFSIZ from_filepath to_filepath pos w hpos hshort]
    refine ⟨fun h => (by cases h), fun hfull => ?_⟩
    exact absurd (Nat.min_eq_left (hfull pos rd.1.length)) hshort
  | case2 pos w rd hpos wr hfull ih =>
    intro hf hg
    obtain ⟨g, hg, hdata⟩ := hg
    rw [copy_loop_next env BUFSIZ from_filepath to_filepath pos w hpos hfull]
    have hw : wr.1 = rd.1.length := not_not.1 hfull
    have hrd : rd.1 = (f.data.drop pos).take BUFSIZ := by
      show ((file_data w.fs (env.resolve from_filepath)).drop pos).take BUFSIZ = _
      simp [file_data, hf]
    have hfs : wr.2.fs = write_at w.fs (env.resolve to_filepath) pos rd.1 := by
      show write_at w.fs (env.resolve to_filepath) pos (rd.1.take wr.1) = _
      rw [hw, List.take_length]
    apply ih
    · rw [hfs, write_at_other _ _ _ _ _ hne, hf]
    · refine ⟨_, by rw [hfs]; exact write_at_same _ _ _ _ g hg, ?_⟩
      show pwrite g.data pos rd.1 = _
      rw [hdata, hrd, pwrite_next_chunk]
  | case3 pos w rd hpos =>
    intro hf hg
    obtain ⟨g, hg, hdata⟩ := hg
    rw [copy_loop_end env BUFSIZ from_filepath to_filepath pos w hpos]
    refine ⟨fun _ => ⟨g, hg, ?_⟩, fun _ => rfl⟩
    have hrd : rd.1 = (f.data.drop pos).take BUFSIZ := by
      show ((file_data w.fs (env.resolve from_filepath)).drop pos).take BUFSIZ = _
      simp [file_data, hf]
    have h0 : ((f.data.drop pos).take BUFSIZ).length = 0 := by
      rw [← hrd]; omega
    rw [List.length_take, List.length_drop] at h0
    rw [hdata, List.take_of_length_le (by omega)]

theorem sys_fopen_stdout (env : Env) (p : CString) (m : OpenMode) (w : World) :
    (sys_fopen env p m w).2.stdout = w.stdout := by
  unfold sys_fopen
  split
  · split <;> rfl
  · rfl

theorem sys_fopen_other (env : Env) (p : CString) (m : OpenMode) (w : World) (q : CString)
    (h : q ≠ env.resolve p) : (sys_fopen env p m w).2.fs q = w.fs q := by
  unfold sys_fopen
  split
  · split <;> simp [World.log, update, h]
  · rfl

theorem sys_fopen_r_fs (env : Env) (p : CString) (w : World) :
    (sys_fopen env p OpenMode.r w).2.fs = w.fs := by
  unfold sys_fopen
  split
  · split <;> first | rfl | contradiction
  · rfl

theorem sys_fopen_r_ok (env : Env) (p : CString) (w : World) (f : File)
    (hok : env.fopen_ok p OpenMode.r = true) (hf : w.fs (env.resolve p) = some f) :
    (sys_fopen env p OpenMode.r w).1 = true := by
  simp [sys_fopen, hok, hf]

theorem sys_fopen_w_ok (env : Env) (p : CString) (w : World)
    (hok : env.fopen_ok p OpenMode.w = true) : (sys_fopen env p OpenMode.w w).1 = true := by
  unfold sys_fopen
  rw [if_pos hok]
  cases w.fs (env.resolve p) <;> rfl

theorem sys_fopen_w_empty (env : Env) (p : CString) (w : World)
    (h : (sys_fopen env p OpenMode.w w).1 = true) :
    ∃ g, (sys_fopen env p OpenMode.w w).2.fs (env.resolve p) = some g ∧ g.data = [] := by
  unfold sys_fopen at h ⊢
  split
  · cases hf : w.fs (env.resolve p) with
    | none =>
      exact ⟨⟨[], env.new_mode, env.new_owner, env.new_group⟩, by simp [World.log, update], rfl⟩
    | some f =>
      exact ⟨⟨[], f.mode, f.owner, f.group⟩, by simp [World.log, update], rfl⟩
  · rename_i hno
    rw [if_neg hno] at h
    cases h

/-- The function `copy` writes nothing to standard output and changes no
file but the destination. -/
theorem copy_frame (env : Env) (BUFSIZ : Nat) (from_filepath to_filepath : CString)
    (w : World) :
    (copy env BUFSIZ from_filepath to_filepath w).2.stdout = w.stdout ∧
    ∀ q, q ≠ env.resolve to_filepath →
      (copy env BUFSIZ from_filepath to_filepath w).2.fs q = w.fs q := by
  have hr := sys_fopen_stdout env from_filepath OpenMode.r w
  have hrf := sys_fopen_r_fs env from_filepath w
  unfold copy
  split
  · rename_i w1 h1
    rw [h1] at hr hrf
    have hw := sys_fopen_stdout env to_filepath OpenMode.w w1
    have hwf := sys_fopen_other env to_filepath OpenMode.w w1
    split
    · rename_i w2 h2
      rw [h2] at hw hwf
      have hl := copy_loop_frame env BUFSIZ from_filepath to_filepath 0 w2
      split
      · rename_i w3 h3
        rw [h3] at hl
        refine ⟨?_, fun q hq => ?_⟩
        · show w3.stdout = _
          rw [hl.1, hw, hr]
        · show w3.fs q = _
          rw [hl.2.2 q hq, hwf q hq, hrf]
      · rename_i w3 h3
        rw [h3] at hl
        refine ⟨?_, fun q hq => ?_⟩
        · rw [hl.1, hw, hr]
        · rw [hl.2.2 q hq, hwf q hq, hrf]
    · rename_i w2 h2
      rw [h2] at hw hwf
      refine ⟨?_, fun q hq => ?_⟩
      · show w2.stdout = _
        rw [hw, hr]
      · show w2.fs q = _
        rw [hwf q hq, hrf]
  · rename_i w1 h1
    rw [h1] at hr hrf
    exact ⟨hr, fun q _ => congrFun hrf q⟩

/-- The function `copy` between paths that lead to two different files, the
source being there:
when it returns 0 the destination holds the bytes of the source, and it does
return 0 when both streams open and every write is full. -/
theorem copy_copies (env : Env) (BUFSIZ : Nat) (from_filepath to_filepath : CString)
    (w : World) (f : File) (hne : env.resolve from_filepath ≠ env.resolve to_filepath)
    (hB : 0 < BUFSIZ) (hf : w.fs (env.resolve from_filepath) = some f) :
    ((copy env BUFSIZ from_filepath to_filepath w).1 = 0 →
      ∃ g, (copy env BUFSIZ from_filepath to_filepath w).2.fs (env.resolve to_filepath) =
        some g ∧ g.data = f.data) ∧
    (env.fopen_ok from_filepath OpenMode.r = true → env.fopen_ok to_filepath OpenMode.w = true →
      (∀ p n, n ≤ env.fwrite_count p n) →
      (copy env BUFSIZ from_filepath to_filepath w).1 = 0) := by
  have hrf := sys_fopen_r_fs env from_filepath w
  have hrok := sys_fopen_r_ok env from_filepath w f
  unfold copy
  split
  · rename_i w1 h1
    rw [h1] at hrf
    have hwf := sys_fopen_other env to_filepath OpenMode.w w1 (env.resolve from_filepath) hne
    have hwe := sys_fopen_w_empty env to_filepath w1
    have hwok := sys_fopen_w_ok env to_filepath w1
    split
    · rename_i w2 h2
      rw [h2] at hwf hwe
      obtain ⟨g, hg, hgd⟩ := hwe rfl
      have hf2 : w2.fs (env.resolve from_filepath) = some f := by
        rw [hwf]; show w1.fs (env.resolve from_filepath) = _; rw [hrf, hf]
      have hl := copy_loop_copies env BUFSIZ from_filepath to_filepath hne hB f 0 w2 hf2
        ⟨g, hg, by rw [hgd]; simp⟩
      split
      · rename_i w3 h3
        rw [h3] at hl
        exact ⟨fun _ => hl.1 rfl, fun _ _ _ => rfl⟩
      · rename_i w3 h3
        rw [h3] at hl
        refine ⟨fun h => (by cases h), fun _ _ hfull => ?_⟩
        exact absurd (hl.2 hfull) (by simp)
    · rename_i w2 h2
      rw [h2] at hwok
      refine ⟨fun h => (by cases h), fun _ hok _ => ?_⟩
      exact absurd (hwok hok) (by simp)
  · rename_i w1 h1
    rw [h1] at hrok
    refine ⟨fun h => (by cases h), fun hok _ _ => ?_⟩
    exact absurd (hrok hok hf) (by simp)

/-- The function `copy` between two paths that lead to one file: the file is
there when the first `fopen` returns, the second one empties it, the first
`fread` delivers nothing, and `copy` returns 0. -/
theorem copy_onto_same_file (env : Env) (BUFSIZ : Nat) (A B : CString) (w : World) (f : File)
    (hsame : env.resolve A = env.resolve B) (hf : w.fs (env.resolve A) = some f)
    (hr : env.fopen_ok A OpenMode.r = true) (hw : env.fopen_ok B OpenMode.w = true) :
    (copy env BUFSIZ A B w).1 = 0 ∧
    (copy env BUFSIZ A B w).2.fs (env.resolve A) = some ⟨[], f.mode, f.owner, f.group⟩ ∧
    (copy env BUFSIZ A B w).2.calls = w.calls ++
      [Call.fopen A OpenMode.r, Call.fopen B OpenMode.w, Call.fread A 0,
       Call.fclose B OpenMode.w, Call.fclose A OpenMode.r] := by
  have hfB : w.fs (env.resolve B) = some f := by rw [← hsame]; exact hf
  have h1 : sys_fopen env A OpenMode.r w =
      (true, ⟨w.fs, w.handles ++ [(A, OpenMode.r)], w.stdout, w.stderr,
        w.calls ++ [Call.fopen A OpenMode.r]⟩) := by
    simp [sys_fopen, hr, hf, World.log]
  have h2 : ∀ w1 : World, w1.fs (env.resolve B) = some f → sys_fopen env B OpenMode.w w1 =
      (true, ⟨update w1.fs (env.resolve B) (some ⟨[], f.mode, f.owner, f.group⟩),
        w1.handles ++ [(B, OpenMode.w)], w1.stdout, w1.stderr,
        w1.calls ++ [Call.fopen B OpenMode.w]⟩) := by
    intro w1 hf1
    simp [sys_fopen, hw, hf1, World.log]
  have h3 : ∀ w2 : World, w2.fs (env.resolve A) = some ⟨[], f.mode, f.owner, f.group⟩ →
      copy_loop env BUFSIZ A B 0 w2 = (true, w2.log (Call.fread A 0)) := by
    intro w2 hf2
    have hd : (sys_fread env BUFSIZ A 0 w2).1 = [] := by simp [sys_fread, file_data, hf2]
    rw [copy_loop_end env BUFSIZ A B 0 w2 (by rw [hd]; simp)]
    simp [sys_fread, file_data, hf2]
  have h2a := h2 ⟨w.fs, w.handles ++ [(A, OpenMode.r)], w.stdout, w.stderr,
    w.calls ++ [Call.fopen A OpenMode.r]⟩ hfB
  have h3a := h3 ⟨update w.fs (env.resolve B) (some ⟨[], f.mode, f.owner, f.group⟩),
    w.handles ++ [(A, OpenMode.r)] ++ [(B, OpenMode.w)], w.stdout, w.stderr,
    w.calls ++ [Call.fopen A OpenMode.r] ++ [Call.fopen B OpenMode.w]⟩
    (by simp [update, hsame])
  unfold copy
  rw [h1]
  simp only
  rw [h2a]
  simp only
  rw [h3a]
  simp [sys_fclose, World.log, update, EXIT_SUCCESS, hsame]

/-- The copy branch of `main` once the name and both paths are accepted. -/
theorem main_copy (cfg : Paths) (env : Env) (BUFSIZ : Nat) (prog op A B : CString) (w : World)
    (hroot : env.setuid_ok = true) (hop : same_ignoring_case op (lit "copy"))
    (hA : is_valid_filepath cfg A = true) (hB : is_valid_filepath cfg B = true) :
    main cfg env BUFSIZ [prog, op, A, B] w =
      if (copy env BUFSIZ A B (((w.log Call.setuid).log (Call.is_valid_filepath A)).log
          (Call.is_valid_filepath B))).1 ≠ 0
      then (EXIT_FAILURE, (copy env BUFSIZ A B (((w.log Call.setuid).log
          (Call.is_valid_filepath A)).log (Call.is_valid_filepath B))).2)
      else (EXIT_SUCCESS, (copy env BUFSIZ A B (((w.log Call.setuid).log
          (Call.is_valid_filepath A)).log (Call.is_valid_filepath B))).2) := by
  have h1 : strcasecmp op (lit "chmod") ≠ 0 := strcasecmp_other hop (by decide)
  have h3 : strcasecmp op (lit "copy") = 0 := (strcasecmp_eq_zero_iff _ _).2 hop
  simp [main, sys_setuid, hroot, arg, h1, h3, either_invalid, validate, hA, hB]

theorem sys_fopen_handles (env : Env) (p : CString) (m : OpenMode) (w : World)
    (h : (sys_fopen env p m w).1 = true) :
    (sys_fopen env p m w).2.handles = w.handles ++ [(p, m)] := by
  unfold sys_fopen at h ⊢
  split
  · rename_i hm
    rw [if_pos hm] at h
    split
    · rename_i hnone
      simp [hnone] at h
    · rfl
    · rfl
    · rfl
  · rename_i hno
    rw [if_neg hno] at h
    cases h

/-- A short first write: `copy` returns the failure status with both of its
streams still open. -/
theorem copy_short_write_keeps_streams (env : Env) (BUFSIZ : Nat)
    (from_filepath to_filepath : CString) (w : World) (f : File)
    (hne : env.resolve from_filepath ≠ env.resolve to_filepath)
    (hf : w.fs (env.resolve from_filepath) = some f)
    (hr : env.fopen_ok from_filepath OpenMode.r = true)
    (hw : env.fopen_ok to_filepath OpenMode.w = true)
    (hshort : env.fwrite_count 0 (min BUFSIZ f.data.length) < min BUFSIZ f.data.length) :
    (copy env BUFSIZ from_filepath to_filepath w).1 = EXIT_FAILURE ∧
    (copy env BUFSIZ from_filepath to_filepath w).2.handles =
      w.handles ++ [(from_filepath, OpenMode.r), (to_filepath, OpenMode.w)] := by
  have hrf := sys_fopen_r_fs env from_filepath w
  have hrok := sys_fopen_r_ok env from_filepath w f hr hf
  have hrh := sys_fopen_handles env from_filepath OpenMode.r w hrok
  unfold copy
  split
  · rename_i w1 h1
    rw [h1] at hrf hrh
    have hwf := sys_fopen_other env to_filepath OpenMode.w w1 (env.resolve from_filepath) hne
    have hwok := sys_fopen_w_ok env to_filepath w1 hw
    have hwh := sys_fopen_handles env to_filepath OpenMode.w w1 hwok
    split
    · rename_i w2 h2
      rw [h2] at hwf hwh
      have hf2 : w2.fs (env.resolve from_filepath) = some f := by
        rw [hwf]; show w1.fs (env.resolve from_filepath) = _; rw [hrf, hf]
      have hrd : (sys_fread env BUFSIZ from_filepath 0 w2).1.length = min BUFSIZ f.data.length := by
        simp [sys_fread, file_data, hf2]
      have hpos : (sys_fread env BUFSIZ from_filepath 0 w2).1.length > 0 := by omega
      have hs : (sys_fwrite env to_filepath 0 (sys_fread env BUFSIZ from_filepath 0 w2).1
          (sys_fread env BUFSIZ from_filepath 0 w2).2).1 ≠
            (sys_fread env BUFSIZ from_filepath 0 w2).1.length := by
        show min _ (env.fwrite_count 0 _) ≠ _
        rw [hrd]
        omega
      have hl := copy_loop_short env BUFSIZ from_filepath to_filepath 0 w2 hpos hs
      have hfr := (copy_loop_frame env BUFSIZ from_filepath to_filepath 0 w2).2.1
      split
      · rename_i w3 h3
        rw [h3] at hl
        cases hl
      · rename_i w3 h3
        rw [h3] at hfr
        refine ⟨rfl, ?_⟩
        show w3.handles = _
        rw [hfr]
        show w2.handles = _
        rw [hwh]
        show w1.handles ++ _ = _
        rw [hrh, List.append_assoc]
        rfl
    · rename_i w2 h2
      rw [h2] at hwok
      cases hwok
  · rename_i w1 h1
    rw [h1] at hrok
    cases hrok

theorem kTemporaryFilepath_chars :
    kTemporaryFilepath.chars = temp_stem ++ List.replicate 6 'X' := by decide

theorem padding_mem (pick : Nat → Nat) (i : Nat) : padding pick i ∈ padchar := by
  have h : ∀ k, k < 62 → padchar.getD k '0' ∈ padchar ∧ padchar.getD k '0' ≠ NUL := by decide
  have hk := h (pick i % 62) (Nat.mod_lt _ (by decide))
  unfold padding
  rw [if_neg hk.2]
  exact hk.1

/-- The name `mktemp` makes of the template of `read`: the template with its
six X characters replaced by characters of `padchar`. -/
theorem mktemp_name_chars (pick : Nat → Nat) :
    (mktemp_name kTemporaryFilepath pick).chars =
      temp_stem ++ (List.range 6).map (padding pick) := by
  have h1 : trailingX kTemporaryFilepath.chars = 6 := by decide
  have h2 : kTemporaryFilepath.chars.take (kTemporaryFilepath.chars.length - 6) = temp_stem := by
    decide
  show kTemporaryFilepath.chars.take
      (kTemporaryFilepath.chars.length - trailingX kTemporaryFilepath.chars) ++
      (List.range (trailingX kTemporaryFilepath.chars)).map (padding pick) = _
  rw [h1, h2]

theorem sys_mktemp_some (env : Env) (template : CString) (w : World) (t : CString)
    (h : (sys_mktemp env template w).1 = some t) :
    ∃ pick, env.mktemp_pick = some pick ∧ t = mktemp_name template pick ∧
      w.fs (env.resolve t) = none := by
  unfold sys_mktemp at h
  cases hp : env.mktemp_pick with
  | none => simp [hp] at h
  | some pick =>
    cases hfs : w.fs (env.resolve (mktemp_name template pick)) with
    | none =>
      simp [hp, hfs] at h
      exact ⟨pick, rfl, h.symm, by rw [← h]; exact hfs⟩
    | some g => simp [hp, hfs] at h

theorem sys_mktemp_same_fs (env : Env) (template : CString) (w w1 : World)
    (h : w1.fs = w.fs) :
    sys_mktemp env template w1 =
      ((sys_mktemp env template w).1, w1.log (Call.mktemp template)) := by
  unfold sys_mktemp
  rw [h]
  cases env.mktemp_pick with
  | none => rfl
  | some pick => cases hfs : w.fs (env.resolve (mktemp_name template pick)) <;> simp [hfs]

/-- The read branch of `main` once the name and the path are accepted and
`mktemp` has returned a name. -/
theorem main_read (cfg : Paths) (env : Env) (BUFSIZ : Nat) (prog op A t : CString) (w : World)
    (hroot : env.setuid_ok = true) (hop : same_ignoring_case op (lit "read"))
    (hA : is_valid_filepath cfg A = true)
    (hmk : (sys_mktemp env kTemporaryFilepath w).1 = some t) :
    main cfg env BUFSIZ [prog, op, A] w =
      if (copy env BUFSIZ A t (((w.log Call.setuid).log (Call.is_valid_filepath A)).log
          (Call.mktemp kTemporaryFilepath))).1 ≠ 0
      then (EXIT_FAILURE, (copy env BUFSIZ A t (((w.log Call.setuid).log
          (Call.is_valid_filepath A)).log (Call.mktemp kTemporaryFilepath))).2)
      else (EXIT_SUCCESS, (copy env BUFSIZ A t (((w.log Call.setuid).log
          (Call.is_valid_filepath A)).log (Call.mktemp kTemporaryFilepath))).2.print
            (t.chars ++ [Char.ofNat 10])) := by
  have h5 : strcasecmp op (lit "delete") ≠ 0 := strcasecmp_other hop (by decide)
  have h6 : strcasecmp op (lit "read") = 0 := (strcasecmp_eq_zero_iff _ _).2 hop
  have hm := sys_mktemp_same_fs env kTemporaryFilepath w
    ((w.log Call.setuid).log (Call.is_valid_filepath A)) rfl
  rw [hmk] at hm
  simp only [main, sys_setuid, hroot, arg, List.length_cons, List.length_nil, List.getD_cons_succ,
    List.getD_cons_zero, h5, h6, validate, hA, hm]
  simp

theorem file_data_of_some (fs : CString → Option File) (k : CString) (f : File)
    (h : fs k = some f) : file_data fs k = f.data := by
  simp [file_data, h]

/-- The copy branch of `main` on two accepted paths that lead to one file:
the file ends empty and the exit status is success. -/
theorem main_copy_same_file (cfg : Paths) (env : Env) (BUFSIZ : Nat) (prog op A B : CString)
    (w : World) (f : File) (hroot : env.setuid_ok = true)
    (hop : same_ignoring_case op (lit "copy"))
    (hA : is_valid_filepath cfg A = true) (hB : is_valid_filepath cfg B = true)
    (hsame : env.resolve A = env.resolve B) (hf : w.fs (env.resolve A) = some f)
    (hr : env.fopen_ok A OpenMode.r = true) (hw : env.fopen_ok B OpenMode.w = true) :
    (main cfg env BUFSIZ [prog, op, A, B] w).1 = EXIT_SUCCESS ∧
    (main cfg env BUFSIZ [prog, op, A, B] w).2.calls = w.calls ++
      [Call.setuid, Call.is_valid_filepath A, Call.is_valid_filepath B,
       Call.fopen A OpenMode.r, Call.fopen B OpenMode.w, Call.fread A 0,
       Call.fclose B OpenMode.w, Call.fclose A OpenMode.r] ∧
    (main cfg env BUFSIZ [prog, op, A, B] w).2.fs (env.resolve A) =
      some ⟨[], f.mode, f.owner, f.group⟩ := by
  rw [main_copy cfg env BUFSIZ prog op A B w hroot hop hA hB]
  have h := copy_onto_same_file env BUFSIZ A B (((w.log Call.setuid).log
    (Call.is_valid_filepath A)).log (Call.is_valid_filepath B)) f hsame hf hr hw
  rw [if_neg (by simp [h.1])]
  refine ⟨rfl, ?_, h.2.1⟩
  show (copy env BUFSIZ A B _).2.calls = _
  rw [h.2.2]
  simp [World.log]

/-! ## The path validator -/

/-- C1: `is_valid_filepath` accepts a path exactly when it starts, character
by character, with one of the three configured prefixes; so a path shorter
than each prefix is rejected and a path equal to a prefix is accepted. -/
theorem is_valid_filepath_prefix_match (cfg : Paths) (p : CString) :
    (is_valid_filepath cfg p = true ↔
      (cfg.kCrashLogDirectoryForMobile.chars <+: p.chars ∨
       cfg.kCrashLogDirectoryForRoot.chars <+: p.chars ∨
       cfg.kTemporaryPath.chars <+: p.chars)) ∧
    ((strlen p < strlen cfg.kCrashLogDirectoryForMobile ∧
      strlen p < strlen cfg.kCrashLogDirectoryForRoot ∧
      strlen p < strlen cfg.kTemporaryPath) → is_valid_filepath cfg p = false) ∧
    ((p = cfg.kCrashLogDirectoryForMobile ∨ p = cfg.kCrashLogDirectoryForRoot ∨
      p = cfg.kTemporaryPath) → is_valid_filepath cfg p = true) := by
  refine ⟨is_valid_filepath_iff cfg p, ?_, ?_⟩
  · rintro ⟨h1, h2, h3⟩
    rw [Bool.eq_false_iff, Ne, is_valid_filepath_iff]
    unfold strlen at h1 h2 h3
    rintro (h | h | h) <;> have := h.length_le <;> omega
  · intro h
    rw [is_valid_filepath_iff]
    rcases h with h | h | h <;> subst h <;> simp

/-- C1 at the two paths the specification gives as examples, at a path
shorter than each prefix and at a path equal to a prefix. -/
theorem is_valid_filepath_prefix_match_witness :
    is_valid_filepath sample_paths (lit "/var/mobile/Library/Logs/CrashReporter/x.plist") = true ∧
    is_valid_filepath sample_paths (lit "/etc/passwd") = false ∧
    is_valid_filepath sample_paths (lit "/tm") = false ∧
    is_valid_filepath sample_paths (lit "/tmp") = true :=
  ⟨(is_valid_filepath_prefix_match sample_paths _).1.2 (by decide),
   by decide,
   (is_valid_filepath_prefix_match sample_paths (lit "/tm")).2.1 (by decide),
   (is_valid_filepath_prefix_match sample_paths (lit "/tmp")).2.2 (by decide)⟩

/-! ## The dispatcher -/

/-- C8: when the change of identity fails, the process exits with the
failure status having made no call but `setuid`: no path is checked, no
filesystem call is made, nothing is written to standard output, whatever the
arguments are. -/
theorem elevation_failure_exits_first (cfg : Paths) (env : Env) (BUFSIZ : Nat)
    (argv : List CString) (w : World) (h : env.setuid_ok = false) :
    (main cfg env BUFSIZ argv w).1 = EXIT_FAILURE ∧
    (main cfg env BUFSIZ argv w).2.calls = w.calls ++ [Call.setuid] ∧
    (main cfg env BUFSIZ argv w).2.fs = w.fs ∧
    (main cfg env BUFSIZ argv w).2.handles = w.handles ∧
    (main cfg env BUFSIZ argv w).2.stdout = w.stdout := by
  simp [main, sys_setuid, h, World.log, World.eprint]

/-- C8 at `as_root delete /tmp/a` in an environment where `setuid` fails. -/
theorem elevation_failure_exits_first_witness :
    env_no_root.setuid_ok = false ∧
    (main sample_paths env_no_root 1024 [lit "as_root", lit "delete", lit "/tmp/a"]
      sample_world).2.fs = sample_fs :=
  ⟨rfl, (elevation_failure_exits_first sample_paths env_no_root 1024
    [lit "as_root", lit "delete", lit "/tmp/a"] sample_world rfl).2.2.1⟩

/-- C7: an argument vector that matches no row of the command table, by
name without regard to case and by argument count, makes the program print
the usage text to standard error and exit with status 0, with nothing
written to standard output and no call made but `setuid`. -/
theorem unmatched_invocation_prints_usage (cfg : Paths) (env : Env) (BUFSIZ : Nat)
    (argv : List CString) (w : World) (hroot : env.setuid_ok = true)
    (h : ¬ matches_command argv) :
    (main cfg env BUFSIZ argv w).1 = 0 ∧
    (main cfg env BUFSIZ argv w).2.stderr = w.stderr ++ usage cfg ∧
    (main cfg env BUFSIZ argv w).2.stdout = w.stdout ∧
    (main cfg env BUFSIZ argv w).2.calls = w.calls ++ [Call.setuid] ∧
    (main cfg env BUFSIZ argv w).2.fs = w.fs ∧
    (main cfg env BUFSIZ argv w).2.handles = w.handles := by
  have hrow : ∀ (name : String) (n : Nat), (name, n) ∈ commands →
      ¬ (argv.length = n ∧ strcasecmp (arg argv 1) (lit name) = 0) := by
    intro name n hmem hc
    exact h ⟨(name, n), hmem, hc.1, (strcasecmp_eq_zero_iff _ _).1 hc.2⟩
  have h1 := hrow "chmod" 4 (by decide)
  have h2 := hrow "chown" 5 (by decide)
  have h3 := hrow "copy" 4 (by decide)
  have h4 := hrow "move" 4 (by decide)
  have h5 := hrow "delete" 3 (by decide)
  have h6 := hrow "read" 3 (by decide)
  simp only [main, sys_setuid, hroot, if_neg h1, if_neg h2, if_neg h3, if_neg h4, if_neg h5,
    if_neg h6]
  simp [print_usage, World.eprint, World.log, EXIT_SUCCESS]

/-- C7 at `as_root frobnicate /tmp/x` and at `chmod` with an argument missing. -/
theorem unmatched_invocation_prints_usage_witness :
    (env_ok.setuid_ok = true ∧
     ¬ matches_command [lit "as_root", lit "frobnicate", lit "/tmp/x"] ∧
     (main sample_paths env_ok 1024 [lit "as_root", lit "frobnicate", lit "/tmp/x"]
       sample_world).1 = 0) ∧
    (¬ matches_command [lit "as_root", lit "chmod", lit "/tmp/a"] ∧
     (main sample_paths env_ok 1024 [lit "as_root", lit "chmod", lit "/tmp/a"]
       sample_world).2.fs = sample_fs) :=
  ⟨⟨rfl, by decide, (unmatched_invocation_prints_usage sample_paths env_ok 1024
      [lit "as_root", lit "frobnicate", lit "/tmp/x"] sample_world rfl (by decide)).1⟩,
   ⟨by decide, (unmatched_invocation_prints_usage sample_paths env_ok 1024
      [lit "as_root", lit "chmod", lit "/tmp/a"] sample_world rfl (by decide)).2.2.2.2.1⟩⟩

/-- C6: `move A A` with an allowed path `A` exits with the success status
after the two path checks: `rename` is not called and neither the files, the
open streams nor standard output change, whether or not a file is at `A`. -/
theorem move_onto_itself_is_noop (cfg : Paths) (env : Env) (BUFSIZ : Nat)
    (prog op A : CString) (w : World) (hroot : env.setuid_ok = true)
    (hop : same_ignoring_case op (lit "move")) (hA : is_valid_filepath cfg A = true) :
    (main cfg env BUFSIZ [prog, op, A, A] w).1 = EXIT_SUCCESS ∧
    (main cfg env BUFSIZ [prog, op, A, A] w).2.calls =
      w.calls ++ [Call.setuid, Call.is_valid_filepath A, Call.is_valid_filepath A] ∧
    (main cfg env BUFSIZ [prog, op, A, A] w).2.fs = w.fs ∧
    (main cfg env BUFSIZ [prog, op, A, A] w).2.handles = w.handles ∧
    (main cfg env BUFSIZ [prog, op, A, A] w).2.stdout = w.stdout := by
  have h1 : strcasecmp op (lit "chmod") ≠ 0 := strcasecmp_other hop (by decide)
  have h3 : strcasecmp op (lit "copy") ≠ 0 := strcasecmp_other hop (by decide)
  have h4 : strcasecmp op (lit "move") = 0 := (strcasecmp_eq_zero_iff _ _).2 hop
  simp [main, sys_setuid, hroot, arg, h1, h3, h4, either_invalid, validate, hA, strcmp_self,
    World.log]

/-- C6 at `as_root MOVE /tmp/a /tmp/a`. -/
theorem move_onto_itself_is_noop_witness :
    env_ok.setuid_ok = true ∧ same_ignoring_case (lit "MOVE") (lit "move") ∧
    is_valid_filepath sample_paths (lit "/tmp/a") = true ∧
    (main sample_paths env_ok 1024 [lit "as_root", lit "MOVE", lit "/tmp/a", lit "/tmp/a"]
      sample_world).2.fs = sample_fs :=
  ⟨rfl, by decide, by decide,
   (move_onto_itself_is_noop sample_paths env_ok 1024 (lit "as_root") (lit "MOVE") (lit "/tmp/a")
     sample_world rfl (by decide) (by decide)).2.2.1⟩

/-- After the change of identity, a rejected path ends copy, move, delete and
read before any filesystem call. -/
theorem rejected_path_after_elevation (cfg : Paths) (env : Env) (BUFSIZ : Nat)
    (argv : List CString) (w : World) (hroot : env.setuid_ok = true)
    (h : (argv.length = 4 ∧
          (same_ignoring_case (arg argv 1) (lit "copy") ∨
           same_ignoring_case (arg argv 1) (lit "move")) ∧
          (is_valid_filepath cfg (arg argv 2) = false ∨
           is_valid_filepath cfg (arg argv 3) = false)) ∨
         (argv.length = 3 ∧
          (same_ignoring_case (arg argv 1) (lit "delete") ∨
           same_ignoring_case (arg argv 1) (lit "read")) ∧
          is_valid_filepath cfg (arg argv 2) = false)) :
    (main cfg env BUFSIZ argv w).1 = EXIT_FAILURE ∧
    (main cfg env BUFSIZ argv w).2.fs = w.fs ∧
    (main cfg env BUFSIZ argv w).2.handles = w.handles ∧
    (main cfg env BUFSIZ argv w).2.stdout = w.stdout ∧
    ∃ extra, (main cfg env BUFSIZ argv w).2.calls = w.calls ++ extra ∧
      ∀ c ∈ extra, c.isFilesystemCall = false := by
  rcases h with ⟨hlen, hop, hbad⟩ | ⟨hlen, hop, hbad⟩
  · rcases hop with hop | hop
    · have h1 : strcasecmp (arg argv 1) (lit "chmod") ≠ 0 := strcasecmp_other hop (by decide)
      have h3 : strcasecmp (arg argv 1) (lit "copy") = 0 := (strcasecmp_eq_zero_iff _ _).2 hop
      cases hv : is_valid_filepath cfg (arg argv 2) with
      | false =>
        refine ⟨?_, ?_, ?_, ?_, [Call.setuid, Call.is_valid_filepath (arg argv 2)], ?_, ?_⟩ <;>
          simp [main, sys_setuid, hroot, hlen, h1, h3, either_invalid, validate, hv,
            World.log, World.eprint, Call.isFilesystemCall]
      | true =>
        have hv3 : is_valid_filepath cfg (arg argv 3) = false := by
          rcases hbad with hb | hb
          · rw [hv] at hb; cases hb
          · exact hb
        refine ⟨?_, ?_, ?_, ?_, [Call.setuid, Call.is_valid_filepath (arg argv 2),
          Call.is_valid_filepath (arg argv 3)], ?_, ?_⟩ <;>
          simp [main, sys_setuid, hroot, hlen, h1, h3, either_invalid, validate, hv, hv3,
            World.log, World.eprint, Call.isFilesystemCall]
    · have h1 : strcasecmp (arg argv 1) (lit "chmod") ≠ 0 := strcasecmp_other hop (by decide)
      have h3 : strcasecmp (arg argv 1) (lit "copy") ≠ 0 := strcasecmp_other hop (by decide)
      have h4 : strcasecmp (arg argv 1) (lit "move") = 0 := (strcasecmp_eq_zero_iff _ _).2 hop
      cases hv : is_valid_filepath cfg (arg argv 2) with
      | false =>
        refine ⟨?_, ?_, ?_, ?_, [Call.setuid, Call.is_valid_filepath (arg argv 2)], ?_, ?_⟩ <;>
          simp [main, sys_setuid, hroot, hlen, h1, h3, h4, either_invalid, validate, hv,
            World.log, World.eprint, Call.isFilesystemCall]
      | true =>
        have hv3 : is_valid_filepath cfg (arg argv 3) = false := by
          rcases hbad with hb | hb
          · rw [hv] at hb; cases hb
          · exact hb
        refine ⟨?_, ?_, ?_, ?_, [Call.setuid, Call.is_valid_filepath (arg argv 2),
          Call.is_valid_filepath (arg argv 3)], ?_, ?_⟩ <;>
          simp [main, sys_setuid, hroot, hlen, h1, h3, h4, either_invalid, validate, hv, hv3,
            World.log, World.eprint, Call.isFilesystemCall]
  · rcases hop with hop | hop
    · have h5 : strcasecmp (arg argv 1) (lit "delete") = 0 := (strcasecmp_eq_zero_iff _ _).2 hop
      refine ⟨?_, ?_, ?_, ?_, [Call.setuid, Call.is_valid_filepath (arg argv 2)], ?_, ?_⟩ <;>
        simp [main, sys_setuid, hroot, hlen, h5, validate, hbad,
          World.log, World.eprint, Call.isFilesystemCall]
    · have h5 : strcasecmp (arg argv 1) (lit "delete") ≠ 0 := strcasecmp_other hop (by decide)
      have h6 : strcasecmp (arg argv 1) (lit "read") = 0 := (strcasecmp_eq_zero_iff _ _).2 hop
      refine ⟨?_, ?_, ?_, ?_, [Call.setuid, Call.is_valid_filepath (arg argv 2)], ?_, ?_⟩ <;>
        simp [main, sys_setuid, hroot, hlen, h5, h6, validate, hbad,
          World.log, World.eprint, Call.isFilesystemCall]

/-- C3: when copy or move (three arguments after `argv[0]`) is given a path
that `is_valid_filepath` rejects in either position, or delete or read (two
arguments) is given one, the process exits with the failure status having
made no call but `setuid` and path checks: no filesystem call is made, and
the files, the open streams and standard output are as before. -/
theorem invalid_path_stops_the_operation (cfg : Paths) (env : Env) (BUFSIZ : Nat)
    (argv : List CString) (w : World)
    (h : (argv.length = 4 ∧
          (same_ignoring_case (arg argv 1) (lit "copy") ∨
           same_ignoring_case (arg argv 1) (lit "move")) ∧
          (is_valid_filepath cfg (arg argv 2) = false ∨
           is_valid_filepath cfg (arg argv 3) = false)) ∨
         (argv.length = 3 ∧
          (same_ignoring_case (arg argv 1) (lit "delete") ∨
           same_ignoring_case (arg argv 1) (lit "read")) ∧
          is_valid_filepath cfg (arg argv 2) = false)) :
    (main cfg env BUFSIZ argv w).1 = EXIT_FAILURE ∧
    (main cfg env BUFSIZ argv w).2.fs = w.fs ∧
    (main cfg env BUFSIZ argv w).2.handles = w.handles ∧
    (main cfg env BUFSIZ argv w).2.stdout = w.stdout ∧
    ∃ extra, (main cfg env BUFSIZ argv w).2.calls = w.calls ++ extra ∧
      ∀ c ∈ extra, c.isFilesystemCall = false := by
  cases hroot : env.setuid_ok with
  | true => exact rejected_path_after_elevation cfg env BUFSIZ argv w hroot h
  | false =>
    refine ⟨?_, ?_, ?_, ?_, [Call.setuid], ?_, ?_⟩ <;>
      simp [main, sys_setuid, hroot, World.log, World.eprint, Call.isFilesystemCall]

/-- C3 at `as_root copy /tmp/a /etc/shadow` and at `as_root read /etc/passwd`. -/
theorem invalid_path_stops_the_operation_witness :
    (is_valid_filepath sample_paths (lit "/etc/shadow") = false ∧
     (main sample_paths env_ok 1024 [lit "as_root", lit "copy", lit "/tmp/a", lit "/etc/shadow"]
       sample_world).2.fs = sample_fs) ∧
    (is_valid_filepath sample_paths (lit "/etc/passwd") = false ∧
     (main sample_paths env_ok 1024 [lit "as_root", lit "read", lit "/etc/passwd"]
       sample_world).1 = EXIT_FAILURE) :=
  ⟨⟨by decide, (invalid_path_stops_the_operation sample_paths env_ok 1024
      [lit "as_root", lit "copy", lit "/tmp/a", lit "/etc/shadow"] sample_world
      (Or.inl ⟨rfl, Or.inl (by decide), Or.inr (by decide)⟩)).2.1⟩,
   ⟨by decide, (invalid_path_stops_the_operation sample_paths env_ok 1024
      [lit "as_root", lit "read", lit "/etc/passwd"] sample_world
      (Or.inr ⟨rfl, Or.inr (by decide), by decide⟩)).1⟩⟩

/-- C2: `as_root chmod /etc/passwd 644` and `as_root chown /etc/passwd 501 501`
run on a path that `is_valid_filepath` rejects: the chmod and chown branches
do not check the path, `chmod` and `lchown` are called on it, the mode and the
ownership of the file change, and the exit status is success. -/
theorem chmod_chown_skip_the_path_check :
    is_valid_filepath sample_paths (lit "/etc/passwd") = false ∧
    sample_world.fs (lit "/etc/passwd") = some ⟨[114, 111, 111, 116], 384, 0, 0⟩ ∧
    (main sample_paths env_ok 1024 [lit "as_root", lit "chmod", lit "/etc/passwd", lit "644"]
      sample_world).1 = EXIT_SUCCESS ∧
    (main sample_paths env_ok 1024 [lit "as_root", lit "chmod", lit "/etc/passwd", lit "644"]
      sample_world).2.calls = [Call.setuid, Call.chmod (lit "/etc/passwd") 420] ∧
    (main sample_paths env_ok 1024 [lit "as_root", lit "chmod", lit "/etc/passwd", lit "644"]
      sample_world).2.fs (lit "/etc/passwd") = some ⟨[114, 111, 111, 116], 420, 0, 0⟩ ∧
    (main sample_paths env_ok 1024
      [lit "as_root", lit "chown", lit "/etc/passwd", lit "501", lit "501"]
      sample_world).1 = EXIT_SUCCESS ∧
    (main sample_paths env_ok 1024
      [lit "as_root", lit "chown", lit "/etc/passwd", lit "501", lit "501"]
      sample_world).2.calls = [Call.setuid, Call.lchown (lit "/etc/passwd") 501 501] ∧
    (main sample_paths env_ok 1024
      [lit "as_root", lit "chown", lit "/etc/passwd", lit "501", lit "501"]
      sample_world).2.fs (lit "/etc/passwd") = some ⟨[114, 111, 111, 116], 384, 501, 501⟩ := by
  refine ⟨by decide, by decide, by decide, by decide, by decide, by decide, by decide, by decide⟩

/-! ## The file operations -/

/-- C4, as stated, fails when `A` and `B` lead to one file. At
`as_root copy /tmp/a /tmp/a`, with a file of five bytes at `/tmp/a`, both
paths allowed and both streams opening, the process exits with the success
status and the file ends empty: `B` does not hold the bytes `A` held. The
same happens at `as_root copy /tmp/a /tmp/./a`, two different strings that
lead to one file. -/
theorem copy_round_trip_fails_on_one_file :
    (is_valid_filepath sample_paths (lit "/tmp/a") = true ∧
     sample_world.fs (env_ok.resolve (lit "/tmp/a")) = some ⟨[1, 2, 3, 4, 5], 384, 501, 501⟩ ∧
     env_ok.setuid_ok = true ∧
     env_ok.fopen_ok (lit "/tmp/a") OpenMode.r = true ∧
     env_ok.fopen_ok (lit "/tmp/a") OpenMode.w = true ∧
     (main sample_paths env_ok 1024 [lit "as_root", lit "copy", lit "/tmp/a", lit "/tmp/a"]
       sample_world).1 = EXIT_SUCCESS ∧
     file_data (main sample_paths env_ok 1024
       [lit "as_root", lit "copy", lit "/tmp/a", lit "/tmp/a"] sample_world).2.fs
         (env_ok.resolve (lit "/tmp/a")) = [] ∧
     file_data (main sample_paths env_ok 1024
       [lit "as_root", lit "copy", lit "/tmp/a", lit "/tmp/a"] sample_world).2.fs
         (env_ok.resolve (lit "/tmp/a")) ≠ [1, 2, 3, 4, 5]) ∧
    (lit "/tmp/a" ≠ lit "/tmp/./a" ∧
     env_dot.resolve (lit "/tmp/a") = env_dot.resolve (lit "/tmp/./a") ∧
     is_valid_filepath sample_paths (lit "/tmp/./a") = true ∧
     sample_world.fs (env_dot.resolve (lit "/tmp/a")) = some ⟨[1, 2, 3, 4, 5], 384, 501, 501⟩ ∧
     (main sample_paths env_dot 1024 [lit "as_root", lit "copy", lit "/tmp/a", lit "/tmp/./a"]
       sample_world).1 = EXIT_SUCCESS ∧
     file_data (main sample_paths env_dot 1024
       [lit "as_root", lit "copy", lit "/tmp/a", lit "/tmp/./a"] sample_world).2.fs
         (env_dot.resolve (lit "/tmp/./a")) = []) := by
  have h1 := main_copy_same_file sample_paths env_ok 1024 (lit "as_root") (lit "copy")
    (lit "/tmp/a") (lit "/tmp/a") sample_world ⟨[1, 2, 3, 4, 5], 384, 501, 501⟩ rfl (by decide)
    (by decide) (by decide) rfl (by decide) rfl rfl
  have h2 := main_copy_same_file sample_paths env_dot 1024 (lit "as_root") (lit "copy")
    (lit "/tmp/a") (lit "/tmp/./a") sample_world ⟨[1, 2, 3, 4, 5], 384, 501, 501⟩ rfl
    (by decide) (by decide) (by decide) (by decide) (by decide) rfl rfl
  have hd1 := file_data_of_some _ _ _ h1.2.2
  have hd2 := file_data_of_some _ _ _ h2.2.2
  refine ⟨⟨by decide, by decide, rfl, rfl, rfl, h1.1, hd1, ?_⟩,
    ⟨by decide, by decide, by decide, by decide, h2.1, ?_⟩⟩
  · rw [hd1]; decide
  · have hk : env_dot.resolve (lit "/tmp/./a") = env_dot.resolve (lit "/tmp/a") := by decide
    rw [hk]
    exact hd2

/-- C4, amended: `copy A B` on two allowed paths that lead to two different
files, with a file at `A`, any positive chunk size, both streams opening and
every write full, exits with the success status, and afterwards the file at
`B` holds the bytes the file at `A` held, all of them, whatever their number
is, and the file at `A` is as it was. -/
theorem copy_round_trip_between_two_files (cfg : Paths) (env : Env) (BUFSIZ : Nat)
    (prog op A B : CString) (w : World) (f : File) (hroot : env.setuid_ok = true)
    (hop : same_ignoring_case op (lit "copy"))
    (hA : is_valid_filepath cfg A = true) (hB : is_valid_filepath cfg B = true)
    (hne : env.resolve A ≠ env.resolve B)
    (hf : w.fs (env.resolve A) = some f) (hbuf : 0 < BUFSIZ)
    (hr : env.fopen_ok A OpenMode.r = true) (hw : env.fopen_ok B OpenMode.w = true)
    (hfull : ∀ pos nitems, nitems ≤ env.fwrite_count pos nitems) :
    (main cfg env BUFSIZ [prog, op, A, B] w).1 = EXIT_SUCCESS ∧
    (∃ g, (main cfg env BUFSIZ [prog, op, A, B] w).2.fs (env.resolve B) = some g ∧
      g.data = f.data) ∧
    (main cfg env BUFSIZ [prog, op, A, B] w).2.fs (env.resolve A) = some f ∧
    file_data (main cfg env BUFSIZ [prog, op, A, B] w).2.fs (env.resolve B) =
      file_data (main cfg env BUFSIZ [prog, op, A, B] w).2.fs (env.resolve A) := by
  rw [main_copy cfg env BUFSIZ prog op A B w hroot hop hA hB]
  have h := copy_copies env BUFSIZ A B (((w.log Call.setuid).log
    (Call.is_valid_filepath A)).log (Call.is_valid_filepath B)) f hne hbuf hf
  have hfr := (copy_frame env BUFSIZ A B (((w.log Call.setuid).log
    (Call.is_valid_filepath A)).log (Call.is_valid_filepath B))).2 (env.resolve A) hne
  have h0 := h.2 hr hw hfull
  obtain ⟨g, hg, hgd⟩ := h.1 h0
  rw [if_neg (by simp [h0])]
  have hfa : (copy env BUFSIZ A B (((w.log Call.setuid).log
      (Call.is_valid_filepath A)).log (Call.is_valid_filepath B))).2.fs (env.resolve A) =
      some f := by
    rw [hfr]; exact hf
  refine ⟨rfl, ⟨g, hg, hgd⟩, hfa, ?_⟩
  show file_data (copy env BUFSIZ A B _).2.fs (env.resolve B) =
    file_data (copy env BUFSIZ A B _).2.fs (env.resolve A)
  rw [file_data_of_some _ _ _ hfa, file_data_of_some _ _ _ hg, hgd]

/-- C4, amended, at `as_root copy /tmp/a /tmp/b` with chunks of two bytes for
a file of five. -/
theorem copy_round_trip_between_two_files_witness :
    (env_ok.resolve (lit "/tmp/a") ≠ env_ok.resolve (lit "/tmp/b") ∧
     sample_world.fs (env_ok.resolve (lit "/tmp/a")) = some ⟨[1, 2, 3, 4, 5], 384, 501, 501⟩ ∧
     0 < 2) ∧
    ((main sample_paths env_ok 2 [lit "as_root", lit "copy", lit "/tmp/a", lit "/tmp/b"]
      sample_world).1 = EXIT_SUCCESS ∧
     ∃ g, (main sample_paths env_ok 2 [lit "as_root", lit "copy", lit "/tmp/a", lit "/tmp/b"]
      sample_world).2.fs (env_ok.resolve (lit "/tmp/b")) = some g ∧ g.data = [1, 2, 3, 4, 5]) :=
  ⟨⟨by decide, by decide, by decide⟩,
   ⟨(copy_round_trip_between_two_files sample_paths env_ok 2 (lit "as_root") (lit "copy")
      (lit "/tmp/a") (lit "/tmp/b") sample_world ⟨[1, 2, 3, 4, 5], 384, 501, 501⟩ rfl
      (by decide) (by decide) (by decide) (by decide) (by decide) (by decide) rfl rfl
      (fun _ n => Nat.le_refl n)).1,
    (copy_round_trip_between_two_files sample_paths env_ok 2 (lit "as_root") (lit "copy")
      (lit "/tmp/a") (lit "/tmp/b") sample_world ⟨[1, 2, 3, 4, 5], 384, 501, 501⟩ rfl
      (by decide) (by decide) (by decide) (by decide) (by decide) (by decide) rfl rfl
      (fun _ n => Nat.le_refl n)).2.1⟩⟩

/-- C10: `copy A A` on an allowed path with a file of at least one byte,
both streams opening, opens `A` for reading, opens it again for writing,
reads no byte, closes both streams and exits with the success status; the
file is left empty, its bytes are lost. With a destination `B` that leads
to another file than `A`, a copy that exits with the success status leaves
the file at `A` as it was. -/
theorem copy_onto_itself_empties_the_file (cfg : Paths) (env : Env) (BUFSIZ : Nat)
    (prog op A : CString) (w : World) (f : File) (hroot : env.setuid_ok = true)
    (hop : same_ignoring_case op (lit "copy")) (hA : is_valid_filepath cfg A = true)
    (hf : w.fs (env.resolve A) = some f) (hdata : f.data ≠ [])
    (hr : env.fopen_ok A OpenMode.r = true) (hw : env.fopen_ok A OpenMode.w = true) :
    ((main cfg env BUFSIZ [prog, op, A, A] w).1 = EXIT_SUCCESS ∧
     (main cfg env BUFSIZ [prog, op, A, A] w).2.calls = w.calls ++
       [Call.setuid, Call.is_valid_filepath A, Call.is_valid_filepath A,
        Call.fopen A OpenMode.r, Call.fopen A OpenMode.w, Call.fread A 0,
        Call.fclose A OpenMode.w, Call.fclose A OpenMode.r] ∧
     (main cfg env BUFSIZ [prog, op, A, A] w).2.fs (env.resolve A) =
       some ⟨[], f.mode, f.owner, f.group⟩ ∧
     file_data (main cfg env BUFSIZ [prog, op, A, A] w).2.fs (env.resolve A) ≠
       file_data w.fs (env.resolve A)) ∧
    (∀ B, env.resolve B ≠ env.resolve A →
      (main cfg env BUFSIZ [prog, op, A, B] w).1 = EXIT_SUCCESS →
      (main cfg env BUFSIZ [prog, op, A, B] w).2.fs (env.resolve A) = some f) := by
  constructor
  · have h := main_copy_same_file cfg env BUFSIZ prog op A A w f hroot hop hA hA rfl hf hr hw
    refine ⟨h.1, h.2.1, h.2.2, ?_⟩
    rw [file_data_of_some _ _ _ h.2.2, file_data_of_some _ _ _ hf]
    exact fun h0 => hdata h0.symm
  · intro B hne hsucc
    have hB : is_valid_filepath cfg B = true := by
      cases hv : is_valid_filepath cfg B with
      | true => rfl
      | false =>
        have hfail := (rejected_path_after_elevation cfg env BUFSIZ [prog, op, A, B] w hroot
          (Or.inl ⟨rfl, Or.inl hop, Or.inr hv⟩)).1
        rw [hfail] at hsucc
        exact absurd hsucc (by decide)
    rw [main_copy cfg env BUFSIZ prog op A B w hroot hop hA hB]
    have hfr := (copy_frame env BUFSIZ A B (((w.log Call.setuid).log
      (Call.is_valid_filepath A)).log (Call.is_valid_filepath B))).2 (env.resolve A)
      (Ne.symm hne)
    split
    · exact hfr.trans hf
    · exact hfr.trans hf

/-- C10 at `as_root copy /tmp/a /tmp/a`, the file holding five bytes. -/
theorem copy_onto_itself_empties_the_file_witness :
    (sample_world.fs (lit "/tmp/a") = some ⟨[1, 2, 3, 4, 5], 384, 501, 501⟩ ∧
     is_valid_filepath sample_paths (lit "/tmp/a") = true) ∧
    (main sample_paths env_ok 1024 [lit "as_root", lit "copy", lit "/tmp/a", lit "/tmp/a"]
      sample_world).2.fs (lit "/tmp/a") = some ⟨[], 384, 501, 501⟩ :=
  ⟨⟨by decide, by decide⟩,
   (copy_onto_itself_empties_the_file sample_paths env_ok 1024 (lit "as_root") (lit "copy")
     (lit "/tmp/a") sample_world ⟨[1, 2, 3, 4, 5], 384, 501, 501⟩ rfl (by decide) (by decide)
     (by decide) (by decide) rfl rfl).1.2.2.1⟩

/-- C5: `read A` on an allowed path with a file at it, once `mktemp` has
returned the name `t`: the copy into `t` returns 0 when both streams open and
every write is full; when it returns 0 the process exits with the success
status and has written to standard output the one line `t`, a name that
starts with the temporary-directory prefix (given that this prefix is an
initial part of the template before its X characters), that `is_valid_filepath` accepts, that
is the template with its six X characters replaced, and at which the file
holds the bytes of `A`; when the copy does not return 0 the process exits
with the failure status and has written nothing to standard output. -/
theorem read_prints_temporary_copy (cfg : Paths) (env : Env) (BUFSIZ : Nat)
    (prog op A t : CString) (w : World) (f : File) (hroot : env.setuid_ok = true)
    (hop : same_ignoring_case op (lit "read")) (hA : is_valid_filepath cfg A = true)
    (hf : w.fs (env.resolve A) = some f) (hbuf : 0 < BUFSIZ)
    (htmp : temp_prefix_covers_template cfg)
    (hmk : (sys_mktemp env kTemporaryFilepath w).1 = some t) :
    (env.fopen_ok A OpenMode.r = true → env.fopen_ok t OpenMode.w = true →
      (∀ pos nitems, nitems ≤ env.fwrite_count pos nitems) →
      (copy env BUFSIZ A t (((w.log Call.setuid).log (Call.is_valid_filepath A)).log
        (Call.mktemp kTemporaryFilepath))).1 = 0) ∧
    ((copy env BUFSIZ A t (((w.log Call.setuid).log (Call.is_valid_filepath A)).log
        (Call.mktemp kTemporaryFilepath))).1 = 0 →
      (main cfg env BUFSIZ [prog, op, A] w).1 = EXIT_SUCCESS ∧
      (main cfg env BUFSIZ [prog, op, A] w).2.stdout = w.stdout ++ (t.chars ++ [Char.ofNat 10]) ∧
      Char.ofNat 10 ∉ t.chars ∧
      cfg.kTemporaryPath.chars <+: t.chars ∧
      is_valid_filepath cfg t = true ∧
      (∃ suffix, suffix.length = 6 ∧ t.chars = temp_stem ++ suffix ∧
        kTemporaryFilepath.chars = temp_stem ++ List.replicate 6 'X') ∧
      ∃ g, (main cfg env BUFSIZ [prog, op, A] w).2.fs (env.resolve t) = some g ∧
        g.data = f.data) ∧
    ((copy env BUFSIZ A t (((w.log Call.setuid).log (Call.is_valid_filepath A)).log
        (Call.mktemp kTemporaryFilepath))).1 ≠ 0 →
      (main cfg env BUFSIZ [prog, op, A] w).1 = EXIT_FAILURE ∧
      (main cfg env BUFSIZ [prog, op, A] w).2.stdout = w.stdout) := by
  obtain ⟨pick, _, ht, hnone⟩ := sys_mktemp_some env kTemporaryFilepath w t hmk
  have hne : env.resolve A ≠ env.resolve t := by
    intro h
    rw [h, hnone] at hf
    cases hf
  have hchars : t.chars = temp_stem ++ (List.range 6).map (padding pick) := by
    rw [ht, mktemp_name_chars]
  have hpre : cfg.kTemporaryPath.chars <+: t.chars := by
    rw [hchars]
    exact htmp.trans (List.prefix_append _ _)
  have hnl : Char.ofNat 10 ∉ t.chars := by
    rw [hchars]
    intro hmem
    rcases List.mem_append.1 hmem with h | h
    · revert h; decide
    · rcases List.mem_map.1 h with ⟨i, _, hi⟩
      have hp := padding_mem pick i
      rw [hi] at hp
      revert hp; decide
  have hcopy := copy_copies env BUFSIZ A t (((w.log Call.setuid).log
    (Call.is_valid_filepath A)).log (Call.mktemp kTemporaryFilepath)) f hne hbuf hf
  have hframe := copy_frame env BUFSIZ A t (((w.log Call.setuid).log
    (Call.is_valid_filepath A)).log (Call.mktemp kTemporaryFilepath))
  rw [main_read cfg env BUFSIZ prog op A t w hroot hop hA hmk]
  refine ⟨hcopy.2, fun h0 => ?_, fun h1 => ?_⟩
  · rw [if_neg (by simp [h0])]
    refine ⟨rfl, ?_, hnl, hpre, ?_, ⟨_, by simp, hchars, kTemporaryFilepath_chars⟩, hcopy.1 h0⟩
    · show (copy env BUFSIZ A t _).2.stdout ++ _ = _
      rw [hframe.1]
      rfl
    · rw [is_valid_filepath_iff]
      exact Or.inr (Or.inr hpre)
  · rw [if_pos h1]
    exact ⟨rfl, hframe.1⟩

/-- C5 at `as_root read /tmp/a`, `mktemp` returning
`/tmp/CrashReporter.temp.ABCDEF`. -/
theorem read_prints_temporary_copy_witness :
    (sample_world.fs (lit "/tmp/a") = some ⟨[1, 2, 3, 4, 5], 384, 501, 501⟩ ∧
     temp_prefix_covers_template sample_paths ∧
     (sys_mktemp env_ok kTemporaryFilepath sample_world).1 =
       some (lit "/tmp/CrashReporter.temp.ABCDEF")) ∧
    (main sample_paths env_ok 2 [lit "as_root", lit "read", lit "/tmp/a"] sample_world).2.stdout =
      sample_world.stdout ++ ((lit "/tmp/CrashReporter.temp.ABCDEF").chars ++ [Char.ofNat 10]) :=
  ⟨⟨by decide, by decide, by decide⟩,
   ((read_prints_temporary_copy sample_paths env_ok 2 (lit "as_root") (lit "read") (lit "/tmp/a")
      (lit "/tmp/CrashReporter.temp.ABCDEF") sample_world ⟨[1, 2, 3, 4, 5], 384, 501, 501⟩ rfl
      (by decide) (by decide) (by decide) (by decide) (by decide) (by decide)).2.1
     ((read_prints_temporary_copy sample_paths env_ok 2 (lit "as_root") (lit "read")
        (lit "/tmp/a") (lit "/tmp/CrashReporter.temp.ABCDEF") sample_world
        ⟨[1, 2, 3, 4, 5], 384, 501, 501⟩ rfl (by decide) (by decide) (by decide) (by decide)
        (by decide) (by decide)).1 rfl rfl (fun _ n => Nat.le_refl n))).2.1⟩

/-- C9: a short write leaves `copy` through `exit_copy`, past both `fclose`
calls: `copy /tmp/a /tmp/b`, with `fwrite` writing one byte of the five it
is given, returns the failure status with the two streams it opened still
open, where none was open before the call. -/
theorem copy_short_write_leaks_streams :
    sample_world.handles = [] ∧
    (copy env_short_write 1024 (lit "/tmp/a") (lit "/tmp/b") sample_world).1 = EXIT_FAILURE ∧
    (copy env_short_write 1024 (lit "/tmp/a") (lit "/tmp/b") sample_world).2.handles =
      [(lit "/tmp/a", OpenMode.r), (lit "/tmp/b", OpenMode.w)] :=
  ⟨rfl, copy_short_write_keeps_streams env_short_write 1024 (lit "/tmp/a") (lit "/tmp/b")
    sample_world ⟨[1, 2, 3, 4, 5], 384, 501, 501⟩ (by decide) (by decide) rfl rfl (by decide)⟩

end AsRoot
